import Mathlib

/-!
Shallow embedding of the control-binding engine of `orangewidget/gui.py`
(the `ControlledCallback` / `ControlledCallFront` hierarchy, `connectControl`,
`OWComponent`, `auto_commit`, `deferred`, `Disabler`) and of the report
assembly of `orangewidget/report/report.py`, together with theorems that
settle the frozen specification claims about that code.

Conventions.  Python values that flow through the bindings are modelled by
`PyVal` (None, bool, int, float-as-rational, str).  Stateful methods become
pure state-transformers; a method that can raise returns, next to the updated
state, a `Bool` flag telling whether an exception propagates.  The mutual
recursion between a call front (attribute change updates the control, whose
signal re-enters the callback) and a callback (control change sets the
attribute, which re-enters the call front) is fuel-indexed; the `disabled`
counters of the source make every nested call a no-op so any fuel of at
least 2 computes the fixed behaviour.
-/

namespace OrangeGui

/-- Python values as the binding engine sees them: `None`, booleans,
integers, floats (modelled as rationals) and strings. -/
inductive PyVal where
  | pnone : PyVal
  | pbool : Bool → PyVal
  | pint : Int → PyVal
  | pfloat : Rat → PyVal
  | pstr : String → PyVal
deriving DecidableEq, Repr

/-- Python truthiness of a `PyVal` (`bool(v)`). -/
def pyTruthy : PyVal → Bool
  | .pnone => false
  | .pbool b => b
  | .pint n => n != 0
  | .pfloat q => q != 0
  | .pstr s => s != ""

/-- `sub` occurs as a contiguous run inside `l`: Python's `sub in l` on
strings, on the underlying character lists. -/
def pyCharsContain (sub : List Char) : List Char → Bool
  | [] => sub.isEmpty
  | c :: t => sub.isPrefixOf (c :: t) || pyCharsContain sub t

/-- Python's `sub in whole` for strings: substring containment. -/
def pyStrIn (sub whole : String) : Bool :=
  pyCharsContain sub.data whole.data

/-- The value is a string `s` with `s in "+-"` true in Python (substring
test), as used by `ControlledCallback.acyclic_setattr`. -/
def pyValInPM : PyVal → Bool
  | .pstr s => pyStrIn s "+-"
  | _ => false

/-- Value of a list of decimal digit characters. -/
def digitsVal (l : List Char) : Nat :=
  l.foldl (fun a c => a * 10 + (c.toNat - '0'.toNat)) 0

/-- A non-empty all-digit character list, as a number. -/
def pyDigitCore (ds : List Char) : Option Nat :=
  if !ds.isEmpty && ds.all (·.isDigit) then some (digitsVal ds) else none

/-- Python `int(s)` on a string: an optional sign followed by decimal
digits; anything else raises (surrounding whitespace and underscores are
not modelled). -/
def pyStrToIntOpt (s : String) : Option Int :=
  match s.data with
  | '+' :: ds => (pyDigitCore ds).map fun n => (n : Int)
  | '-' :: ds => (pyDigitCore ds).map fun n => -(n : Int)
  | ds => (pyDigitCore ds).map fun n => (n : Int)

/-- A digit run with an optional decimal point, as a rational. -/
def pyDecCore (ds : List Char) : Option Rat :=
  match ds.splitOn '.' with
  | [ip] => (pyDigitCore ip).map fun n => (n : Rat)
  | [ip, fp] =>
      if !(ip ++ fp).isEmpty && (ip ++ fp).all (·.isDigit) then
        some ((digitsVal ip : Rat) + (digitsVal fp : Rat) / (10 : Rat) ^ fp.length)
      else none
  | _ => none

/-- Python `float(s)` on a string: optional sign, digits, optional decimal
point (exponents, `inf` and `nan` are not modelled). -/
def pyStrToRatOpt (s : String) : Option Rat :=
  match s.data with
  | '+' :: ds => pyDecCore ds
  | '-' :: ds => (pyDecCore ds).map fun q => -q
  | ds => pyDecCore ds

/-- Python `int(f)`: truncation toward zero. -/
def ratTruncToInt (q : Rat) : Int := Int.tdiv q.num q.den

/-- The conversion function `fvcb` a binding may carry: the builtins `int`
and `float` (tested for by identity in the source, `self.func in (int,
float)`) or any other callable, kept abstract. -/
inductive ConvFunc where
  | cInt : ConvFunc
  | cFloat : ConvFunc
  | cOther : (PyVal → Except Unit PyVal) → ConvFunc

/-- `self.func in (int, float)` of `acyclic_setattr`. -/
def isIntOrFloat : ConvFunc → Bool
  | .cInt => true
  | .cFloat => true
  | .cOther _ => false

/-- Application of a conversion function; `Except.error` is a raised
exception (e.g. `int("x")`). -/
def applyConv : ConvFunc → PyVal → Except Unit PyVal
  | .cInt, .pbool b => .ok (.pint (if b then 1 else 0))
  | .cInt, .pint n => .ok (.pint n)
  | .cInt, .pfloat q => .ok (.pint (ratTruncToInt q))
  | .cInt, .pstr s =>
      match pyStrToIntOpt s with
      | some n => .ok (.pint n)
      | none => .error ()
  | .cInt, .pnone => .error ()
  | .cFloat, .pbool b => .ok (.pfloat (if b then 1 else 0))
  | .cFloat, .pint n => .ok (.pfloat (n : Rat))
  | .cFloat, .pfloat q => .ok (.pfloat q)
  | .cFloat, .pstr s =>
      match pyStrToRatOpt s with
      | some q => .ok (.pfloat q)
      | none => .error ()
  | .cFloat, .pnone => .error ()
  | .cOther g, v => g v

/-- The conversion step of `ControlledCallback.acyclic_setattr`:

    if self.func:
        if self.func in (int, float) and (
                not value or isinstance(value, str) and value in "+-"):
            value = self.func(0)
        else:
            value = self.func(value)

`none` models a binding constructed without `fvcb`. -/
def convertValue : Option ConvFunc → PyVal → Except Unit PyVal
  | none, v => .ok v
  | some f, v =>
      if isIntOrFloat f && (!pyTruthy v || pyValInPM v) then
        applyConv f (.pint 0)
      else
        applyConv f v

/-!
## One binding as built by `connectControl`

`connectControl(master, value, f, signal, cfront, cback=None, cfunc=None,
fvcb=None)` with a non-empty `value` and no explicit `cback` builds
  * `cback`, a `ValueCallback(master, value, fvcb)` connected to the
    control's change signal, whose `opposite` is `cfront`;
  * `cfunc`, a `FunctionCallback(master, f)` for the user callback, also
    connected to the signal;
  * registers `cfront` under `value` in `master.controlled_attributes`, and
    sets `cfront.opposite = (cback, cfunc)`.

`BindState` is the joint state of such a binding: the master's bound
attribute, the control's displayed value, the three `disabled` counters and
a count of completed user-callback (`cfunc`) runs. -/

structure BindState where
  masterAttr : PyVal
  controlVal : PyVal
  cbackDisabled : Nat
  cfrontDisabled : Nat
  cfuncDisabled : Nat
  cfuncRuns : Nat
deriving DecidableEq, Repr

/-- `FunctionCallback.__call__`: if not disabled, run the user function
(modelled as bumping `cfuncRuns`). -/
def cfuncCall (s : BindState) : BindState :=
  if s.cfuncDisabled ≠ 0 then s else { s with cfuncRuns := s.cfuncRuns + 1 }

/- The mutual recursion of one binding.  `hasFunc` tells whether the
binding has a user callback `cfunc`: only then does `connectControl` reach
`cfront.opposite = tuple(x for x in (cback, cfunc) if x)`, so only then
does the call front have an `opposite` attribute at all.

`cfrontCall` is `ControlledCallFront.__call__`: a no-op when its `disabled`
counter is positive; with `opposite` set it increments the `disabled`
counter of every member (the value callback and the user callback), runs
the subclass's `action` — which, for a non-`None` value, writes the
control's displayed value, whereupon the control's change signal invokes,
in connection order, the value callback and then the user callback — and
decrements the counters again (a `finally` block in the source); with
`opposite` unset (`getattr(self, "opposite", None)` is `None`) it runs the
action with nothing disabled.

`cbackCall` is `ValueCallback.__call__` followed by
`ControlledCallback.acyclic_setattr`: `None` is ignored; a positive
`disabled` counter makes it a no-op; otherwise the value is converted by
`convertValue` (a raised conversion leaves the attribute untouched and
propagates, flag `true`), and the attribute is set under `disable_opposite`,
which increments the call front's `disabled` counter, performs the
assignment — whereupon `OWComponent.__setattr__` invokes the registered
call front with the new value — and decrements it again. -/
mutual

def cfrontCall (hasFunc : Bool) (f : Option ConvFunc) :
    Nat → BindState → PyVal → BindState × Bool
  | 0, s, _ => (s, false)
  | fuel + 1, s, v =>
    if s.cfrontDisabled ≠ 0 then (s, false)
    else if hasFunc then
      let s1 := { s with cbackDisabled := s.cbackDisabled + 1,
                         cfuncDisabled := s.cfuncDisabled + 1 }
      let p :=
        if v = PyVal.pnone then (s1, false)
        else
          let q := cbackCall hasFunc f fuel { s1 with controlVal := v } v
          if q.2 then q else (cfuncCall q.1, false)
      ({ p.1 with cbackDisabled := p.1.cbackDisabled - 1,
                  cfuncDisabled := p.1.cfuncDisabled - 1 }, p.2)
    else
      if v = PyVal.pnone then (s, false)
      else cbackCall hasFunc f fuel { s with controlVal := v } v

def cbackCall (hasFunc : Bool) (f : Option ConvFunc) :
    Nat → BindState → PyVal → BindState × Bool
  | 0, s, _ => (s, false)
  | fuel + 1, s, v =>
    if v = PyVal.pnone then (s, false)
    else if s.cbackDisabled ≠ 0 then (s, false)
    else
      match convertValue f v with
      | .error _ => (s, true)
      | .ok w =>
        let s1 := { s with cfrontDisabled := s.cfrontDisabled + 1 }
        let p := cfrontCall hasFunc f fuel { s1 with masterAttr := w } w
        ({ p.1 with cfrontDisabled := p.1.cfrontDisabled - 1 }, p.2)

end

/-- The control's change signal as emitted by a user edit of the control:
the handlers run in connection order, the value callback first, then —
when the binding has one — the user callback (an exception in the former
is modelled as aborting the emission). -/
def fireSignal (hasFunc : Bool) (f : Option ConvFunc) (fuel : Nat)
    (s : BindState) (v : PyVal) : BindState × Bool :=
  let p := cbackCall hasFunc f fuel s v
  if p.2 then p
  else (if hasFunc then cfuncCall p.1 else p.1, false)

/-- `ControlledCallFront.__call__` with the subclass's `action` kept
abstract (it is overridden by every concrete call front and may raise):
faithful to

    if not self.disabled:
        opposite = getattr(self, "opposite", None)
        if opposite:
            try:
                for op in opposite:
                    op.disabled += 1
                self.action(*args)
            finally:
                for op in opposite:
                    op.disabled -= 1

The action returns the state it leaves behind and whether it raised. -/
def cfrontCallWith (action : BindState → PyVal → BindState × Bool)
    (s : BindState) (v : PyVal) : BindState × Bool :=
  if s.cfrontDisabled ≠ 0 then (s, false)
  else
    let s1 := { s with cbackDisabled := s.cbackDisabled + 1,
                       cfuncDisabled := s.cfuncDisabled + 1 }
    let p := action s1 v
    ({ p.1 with cbackDisabled := p.1.cbackDisabled - 1,
                cfuncDisabled := p.1.cfuncDisabled - 1 }, p.2)

/-!
## `OWComponent`: `connect_control` and `__setattr__`

A component's Python attribute namespace is split into plain values
(`attrs`), the `controlled_attributes` dictionary (`controlled`, a
defaultdict of lists; callbacks are identified by numeric ids) and
attributes holding sub-components (`subs`).  A dotted attribute name
`"graph.attr_x"` is modelled as the list of its dot-separated segments
`["graph", "attr_x"]`, matching the source's split at the first dot. -/

/-- First-match lookup in an association list (a Python dict read). -/
def alookup {α : Type} : List (String × α) → String → Option α
  | [], _ => none
  | (k, a) :: t, key => if k = key then some a else alookup t key

/-- Overwrite the first binding of `key`, or append one (a dict write). -/
def aupdate {α : Type} : List (String × α) → String → α → List (String × α)
  | [], key, a => [(key, a)]
  | (k, b) :: t, key, a =>
      if k = key then (k, a) :: t else (k, b) :: aupdate t key a

/-- An `OWComponent` with its value attributes, its
`controlled_attributes` and its component-valued attributes. -/
inductive Comp where
  | mk : List (String × PyVal) → List (String × List Nat) →
      List (String × Comp) → Comp

def Comp.attrs : Comp → List (String × PyVal)
  | .mk a _ _ => a

def Comp.controlled : Comp → List (String × List Nat)
  | .mk _ c _ => c

def Comp.subs : Comp → List (String × Comp)
  | .mk _ _ s => s

/-- `getattr(obj, name)` for a value attribute. -/
def Comp.getAttrVal (c : Comp) (n : String) : Option PyVal :=
  alookup c.attrs n

/-- `getattr(obj, name)` for a sub-component attribute. -/
def Comp.getSub (c : Comp) (n : String) : Option Comp :=
  alookup c.subs n

/-- `object.__setattr__` on a value attribute (no callbacks). -/
def Comp.setAttrVal (c : Comp) (n : String) (v : PyVal) : Comp :=
  .mk (aupdate c.attrs n v) c.controlled c.subs

/-- Replace the sub-component stored under `n`. -/
def Comp.setSub (c : Comp) (n : String) (sub : Comp) : Comp :=
  .mk c.attrs c.controlled (aupdate c.subs n sub)

/-- `self.controlled_attributes.get(name, ())`: the callbacks registered
for `name`, in registration order. -/
def Comp.getControlled (c : Comp) (n : String) : List Nat :=
  (alookup c.controlled n).getD []

/-- `OWComponent.connect_control(name, func)`: with a dot in the name,
delegate to the sub-component named by the part before the first dot;
otherwise `self.controlled_attributes[name].append(func)` (a defaultdict
of lists). -/
def Comp.connect_control : Comp → List String → Nat → Comp
  | c, [], _ => c
  | c, [n], f =>
      Comp.mk c.attrs (aupdate c.controlled n (c.getControlled n ++ [f])) c.subs
  | c, n :: rest@(_ :: _), f =>
      match c.getSub n with
      | some sub => c.setSub n (sub.connect_control rest f)
      | none => c

/-- `OWComponent.__setattr__(name, value)`: with a dot in the name,
delegate to the sub-component; otherwise store the value with
`super().__setattr__` and then invoke every callback of
`controlled_attributes.get(name, ())` with the value.  The invocations are
returned as a trace of (callback id, argument) pairs, in call order. -/
def Comp.owSetattr : Comp → List String → PyVal → Comp × List (Nat × PyVal)
  | c, [], _ => (c, [])
  | c, [n], v =>
      let c1 := c.setAttrVal n v
      (c1, (c1.getControlled n).map fun cb => (cb, v))
  | c, n :: rest@(_ :: _), v =>
      match c.getSub n with
      | some sub =>
          let p := sub.owSetattr rest v
          (c.setSub n p.1, p.2)
      | none => (c, [])

/-- The registration `connectControl` performs on the master: when the
bound value name is non-empty (so that `cback = value and
ValueCallback(...)` is truthy) and a call front is given,
`master.connect_control(value, cfront)`. -/
def connectControlRegister (c : Comp) (value : List String) (cfront : Nat) :
    Comp :=
  if value.isEmpty then c else c.connect_control value cfront

/-!
## `auto_commit`: the deferred-commit closure

The closure state of one `auto_commit(widget, master, value, label, ...)`
box: `autoFlag` is `getattr(master, value)` (the auto-commit setting),
`dirty` the dirty flag (`commit.dirty` for a decorated commit, the
`nonlocal dirty` of the closure otherwise — both plain booleans),
`commitRuns` counts completed runs of the original commit, `btnLabel` and
`btnEnabled` mirror the commit button, and `callbackRuns` counts runs of
the optional user callback. -/

structure ACState where
  autoFlag : Bool
  dirty : Bool
  commitRuns : Nat
  btnLabel : String
  btnEnabled : Bool
  callbackRuns : Nat
deriving DecidableEq, Repr

/-- `auto_commit.do_commit`: run the original commit (`commit.call()` when
decorated, `commit()` otherwise) and then `set_dirty(False)`; the cursor
override around it is presentation and not modelled. -/
def do_commit (s : ACState) : ACState :=
  { s with commitRuns := s.commitRuns + 1, dirty := false }

/-- `auto_commit.conditional_commit`: commit now when the auto flag is on,
otherwise just `set_dirty(True)`. -/
def conditional_commit (s : ACState) : ACState :=
  if s.autoFlag then do_commit s else { s with dirty := true }

/-- `auto_commit.checkbox_toggled`: with the auto flag on, relabel the
button with `auto_label` and disable it, then commit if dirty; with it
off, restore the plain label and re-enable the button; in both cases run
the optional callback afterwards (`hasCallback` tells whether one was
given). -/
def checkbox_toggled (label autoLabel : String) (hasCallback : Bool)
    (s : ACState) : ACState :=
  let s1 :=
    if s.autoFlag then
      let t := { s with btnLabel := autoLabel, btnEnabled := false }
      if t.dirty then do_commit t else t
    else
      { s with btnLabel := label, btnEnabled := true }
  if hasCallback then { s1 with callbackRuns := s1.callbackRuns + 1 } else s1

/-!
## `gui.deferred`: decorated-commit dispatch -/

/-- The per-instance `DeferredData` of a `gui.deferred`-decorated method
(the `now`/`deferred` slots are function-valued and not needed by the
dispatch claims). -/
structure DeferredData where
  dirty : Bool
  commit_depth : Nat
deriving DecidableEq, Repr

/-- `Deferred.call`: increment `commit_depth`, run the acting function
(`instance.__dict__.get(name, func)`, kept abstract; it returns its final
state and whether it raised) and decrement `commit_depth` again in a
`finally` block. -/
def deferredCall (f : DeferredData → DeferredData × Bool) (d : DeferredData) :
    DeferredData × Bool :=
  let d1 := { d with commit_depth := d.commit_depth + 1 }
  let p := f d1
  ({ p.1 with commit_depth := p.1.commit_depth - 1 }, p.2)

/-- What a direct call of the decorated attribute does. -/
inductive DeferredCallOutcome where
  | raisedRuntimeError : DeferredCallOutcome
  | ran : DeferredData × Bool → DeferredCallOutcome
deriving DecidableEq, Repr

/-- `Deferred.__call__`: inside a running commit (`commit_depth` positive,
a `super()` call) dispatch to `Deferred.call`; otherwise raise
`RuntimeError` telling the caller to use `name.deferred` or `name.now`. -/
def deferredDunderCall (f : DeferredData → DeferredData × Bool)
    (d : DeferredData) : DeferredCallOutcome :=
  if d.commit_depth ≠ 0 then .ran (deferredCall f d)
  else .raisedRuntimeError

/-- Outcome of assigning to the decorated class attribute. -/
inductive DeferrerSetOutcome where
  | raisedValueError : DeferrerSetOutcome
  | assigned : DeferrerSetOutcome
deriving DecidableEq, Repr

/-- `DeferrerProperty.__set__`: unconditionally raises `ValueError`
("decorated <name> can't be mocked"). -/
def deferrerPropertySet : DeferrerSetOutcome :=
  .raisedValueError

/-!
## The callback deposit -/

/-- The master a callback is constructed over, as the deposit logic sees
it: a plain dict, or an object whose `callbackDeposit` attribute either
does not exist yet (`none`) or holds a list of callback ids. -/
inductive DepositTarget where
  | dict : DepositTarget
  | obj : Option (List Nat) → DepositTarget
deriving DecidableEq, Repr

/-- The deposit step of `ControlledCallback.__init__`: a dict widget gets
no deposit; otherwise the `callbackDeposit` list is created if absent and
the new callback appended. -/
def controlledCallbackDeposit (cb : Nat) : DepositTarget → DepositTarget
  | .dict => .dict
  | .obj none => .obj (some [cb])
  | .obj (some l) => .obj (some (l ++ [cb]))

/-- The deposit step of `FunctionCallback.__init__`: append only when
`hasattr(master, "callbackDeposit")` already holds. -/
def functionCallbackDeposit (cb : Nat) : DepositTarget → DepositTarget
  | .obj (some l) => .obj (some (l ++ [cb]))
  | t => t

/-- The deposits a `checkBox(..., callback=...)` call performs, in
evaluation order: the `FunctionCallback` for the user callback is
constructed at the `connectControl` call site, before `connectControl`'s
body constructs the `ValueCallback`. -/
def checkBoxDeposits (funcCb valueCb : Nat) (t : DepositTarget) :
    DepositTarget :=
  controlledCallbackDeposit valueCb (functionCallbackDeposit funcCb t)

/-- The ids deposited on a target. -/
def DepositTarget.ids : DepositTarget → List Nat
  | .dict => []
  | .obj none => []
  | .obj (some l) => l

/-!
## `Report.create_report_html` -/

/-- The slice of a report-mixin widget the serialization touches. -/
structure ReportWidget where
  name : String
  report_html : String
deriving DecidableEq, Repr

/-- `report.get_html_section(name)`: a `<h1>` header carrying the name
and a time stamp (the `time.strftime` result is passed in). -/
def get_html_section (name datetime : String) : String :=
  "<h1>" ++ name ++ " <span class='timestamp'>" ++ datetime ++ "</h1>"

/-- `Report.create_report_html`: rebuild `report_html` from scratch —
assign the section opening, append the section header for `self.name`,
append the content opening, let `send_report` (kept abstract as a
transformer of `report_html`) add its content, and append the closing
markup. -/
def create_report_html (send : String → String) (datetime : String)
    (w : ReportWidget) : ReportWidget :=
  let w1 := { w with report_html := "<section class=\"section\">" }
  let w2 := { w1 with
    report_html := w1.report_html ++ get_html_section w1.name datetime }
  let w3 := { w2 with
    report_html := w2.report_html ++ "<div class=\"content\">\n" }
  let w4 := { w3 with report_html := send w3.report_html }
  { w4 with report_html := w4.report_html ++ "</div></section>\n\n" }

/-!
## `Disabler`

A `Disabler` with `type=DISABLER` (the kind `checkBox` installs as
`makeConsistent`) walks the check box's `disables` list and
enables/disables each listed widget.  The walk is modelled as the list of
actions it performs; widgets are numeric ids.  An entry of `disables` is a
plain widget, a tuple whose first element is an `int` (the walk then acts
on the second element, and a first element of `-1` flips the `disabled`
flag), or a tuple whose first element is not an `int` (the walk acts on
the first element).  For tuple entries the source also invokes the
element's own `makeConsistent` when it has one (`hasMC`). -/

inductive DisEntry where
  | plain : Nat → Bool → DisEntry
  | tupInt : Int → Nat → Bool → DisEntry
  | tupOther : Nat → Bool → DisEntry
deriving DecidableEq, Repr

inductive DisAction where
  | setDisabled : Nat → Bool → DisAction
  | invokeMakeConsistent : Nat → DisAction
deriving DecidableEq, Repr

/-- The loop body of `Disabler.__call__` for `type=DISABLER`, threading the
mutable `disabled` flag through the entries. -/
def disGo : Bool → List DisEntry → List DisAction
  | _, [] => []
  | d, .plain w _ :: rest => .setDisabled w d :: disGo d rest
  | d, .tupInt tag w hasMC :: rest =>
      let d1 := if tag = -1 then !d else d
      .setDisabled w d1 ::
        ((if hasMC then [DisAction.invokeMakeConsistent w] else []) ++ disGo d1 rest)
  | d, .tupOther w hasMC :: rest =>
      .setDisabled w d ::
        ((if hasMC then [DisAction.invokeMakeConsistent w] else []) ++ disGo d rest)

/-- Parity of the inversions a prefix of the walk performs on the mutable
`disabled` flag: one for every tuple entry whose first element is `-1`. -/
def disFlips : List DisEntry → Bool
  | [] => false
  | .tupInt tag _ _ :: rest =>
      if tag = -1 then !(disFlips rest) else disFlips rest
  | _ :: rest => disFlips rest

/-- `Disabler.__call__` for `type=DISABLER`: compute the initial `disabled`
flag — from the passed toggle argument or, absent one, the truth of
`getdeepattr(master, valueName)`, except that a disabled check box with
`propagateState` forces it to `True` — and walk the `disables` list. -/
def disablerCall (propagateState cbEnabled : Bool) (arg : Option Bool)
    (masterVal : Bool) (disables : List DisEntry) : List DisAction :=
  let base := match arg with
    | some b => !b
    | none => !masterVal
  let d0 := if cbEnabled || !propagateState then base else true
  disGo d0 disables

/-!
## `auto_commit` on an undecorated commit: method replacement -/

/-- What the master's rebound attribute slots hold after `auto_commit`. -/
inductive CommitBinding where
  | originalCommit : CommitBinding
  | conditionalCommit : CommitBinding
deriving DecidableEq, Repr

/-- The undecorated branch at the end of `auto_commit`: for a named
(non-lambda) commit, scan `type(master).mro()[1:]` and raise
`RuntimeError` when some class there defines a method named `commitName`
whose `decorated` attribute is truthy (each class is modelled by the set
of such method names it defines; the deprecation warning is not
modelled); otherwise bind `unconditional_<name>` to the original commit
and `<name>` to `conditional_commit` on the master. -/
def autoCommitRebind (isLambda : Bool) (commitName : String)
    (mroRest : List (List String))
    (master : List (String × CommitBinding)) :
    Except Unit (List (String × CommitBinding)) :=
  if !isLambda && mroRest.any (fun cls => cls.contains commitName) then
    .error ()
  else
    .ok (aupdate
      (aupdate master ("unconditional_" ++ commitName) .originalCommit)
      commitName .conditionalCommit)

/-!
## Helper lemmas -/

theorem alookup_aupdate_self {α : Type} (l : List (String × α)) (k : String)
    (a : α) : alookup (aupdate l k a) k = some a := by
  induction l with
  | nil => simp [aupdate, alookup]
  | cons p t ih =>
      obtain ⟨k', b⟩ := p
      by_cases h : k' = k <;> simp [aupdate, alookup, h, ih]

theorem alookup_aupdate_ne {α : Type} (l : List (String × α)) (k k' : String)
    (a : α) (h : k' ≠ k) : alookup (aupdate l k' a) k = alookup l k := by
  induction l with
  | nil => simp [aupdate, alookup, h]
  | cons p t ih =>
      obtain ⟨k'', b⟩ := p
      by_cases h2 : k'' = k' <;> simp [aupdate, alookup, h2, ih]
      subst h2
      simp [h]

theorem pyStrIn_pm_iff (s : String) :
    pyStrIn s "+-" = true ↔ s = "" ∨ s = "+" ∨ s = "-" ∨ s = "+-" := by
  obtain ⟨l⟩ := s
  have hmk : ∀ m : List Char, (String.mk l = String.mk m) ↔ l = m :=
    fun m => ⟨fun h => by cases h; rfl, fun h => by rw [h]⟩
  show pyCharsContain l ['+', '-'] = true ↔ _
  rw [show ("" : String) = String.mk [] from rfl,
      show ("+" : String) = String.mk ['+'] from rfl,
      show ("-" : String) = String.mk ['-'] from rfl,
      show ("+-" : String) = String.mk ['+', '-'] from rfl]
  simp only [hmk]
  rcases l with _ | ⟨a, _ | ⟨b, _ | ⟨c, t⟩⟩⟩
  · decide
  · simp [pyCharsContain, List.isPrefixOf, List.isEmpty]
  · simp [pyCharsContain, List.isPrefixOf, List.isEmpty]
  · simp [pyCharsContain, List.isPrefixOf, List.isEmpty]

theorem cfrontCall_noop (hf : Bool) (g : Option ConvFunc) (m : Nat)
    (t : BindState) (v : PyVal) (ht : t.cfrontDisabled ≠ 0) :
    cfrontCall hf g m t v = (t, false) := by
  cases m with
  | zero => rfl
  | succ k => simp [cfrontCall, ht]

theorem cbackCall_noop (hf : Bool) (g : Option ConvFunc) (m : Nat)
    (t : BindState) (v : PyVal) (ht : t.cbackDisabled ≠ 0) :
    cbackCall hf g m t v = (t, false) := by
  cases m with
  | zero => rfl
  | succ k =>
      by_cases hv : v = PyVal.pnone <;> simp [cbackCall, ht, hv]

theorem disGo_append (d : Bool) (xs ys : List DisEntry) :
    disGo d (xs ++ ys)
      = disGo d xs ++ disGo (if disFlips xs then !d else d) ys := by
  induction xs generalizing d with
  | nil => simp [disGo, disFlips]
  | cons e t ih =>
      cases e with
      | plain w h => simp [disGo, disFlips, ih]
      | tupInt tag w h =>
          by_cases htag : tag = -1 <;>
            simp [disGo, disFlips, htag, ih] <;>
            cases hft : disFlips t <;> simp
      | tupOther w h => simp [disGo, disFlips, ih]

theorem disGo_mc_mem (d : Bool) (es : List DisEntry) (w : Nat) :
    DisAction.invokeMakeConsistent w ∈ disGo d es ↔
      (∃ tag, DisEntry.tupInt tag w true ∈ es)
        ∨ DisEntry.tupOther w true ∈ es := by
  induction es generalizing d with
  | nil => simp [disGo]
  | cons e t ih =>
      cases e with
      | plain w2 h => simp [disGo, ih]
      | tupInt tag w2 h =>
          cases h <;> simp [disGo, ih] <;> aesop
      | tupOther w2 h =>
          cases h <;> simp [disGo, ih] <;> aesop

/-!
## The claims -/

/-- C1 (amended): for a binding where `connectControl` is given or creates
a user callback `cfunc`, `cfront.opposite` is set and the claimed
mechanism holds: the call front, unless itself disabled, increments the
`disabled` counter of every opposite callback around its action and
restores it afterwards, also when the action raises; a disabled callback
or call front does nothing; a front-initiated control update only changes
the control (the value callback is never re-run), and a control-initiated
update sets the attribute once without re-running the call front, all
`disabled` counters returning to their prior values.  For a binding
without `cfunc`, `cfront.opposite` is never assigned, the action runs with
nothing disabled, and a front-initiated update re-invokes the value
callback once, re-setting the master's attribute to the converted value
with the call front disabled, so the recursion still terminates with all
counters restored. -/
theorem C1_acyclic_binding (s : BindState) (v : PyVal) (n : Nat)
    (action : BindState → PyVal → BindState × Bool)
    (hab : ∀ t w, ((action t w).1).cbackDisabled = t.cbackDisabled)
    (haf : ∀ t w, ((action t w).1).cfuncDisabled = t.cfuncDisabled) :
    (((cfrontCallWith action s v).1).cbackDisabled = s.cbackDisabled
      ∧ ((cfrontCallWith action s v).1).cfuncDisabled = s.cfuncDisabled)
    ∧ (∀ (t : BindState) (hf : Bool) (g : Option ConvFunc),
        t.cfrontDisabled ≠ 0 → cfrontCall hf g (n+2) t v = (t, false))
    ∧ (∀ (t : BindState) (hf : Bool) (g : Option ConvFunc),
        t.cbackDisabled ≠ 0 → cbackCall hf g (n+2) t v = (t, false))
    ∧ (s.cfrontDisabled = 0 → v ≠ .pnone →
        cfrontCall true none (n+2) s v = ({ s with controlVal := v }, false))
    ∧ (s.cbackDisabled = 0 → s.cfuncDisabled = 0 → v ≠ .pnone →
        fireSignal true none (n+2) s v
          = ({ s with masterAttr := v, cfuncRuns := s.cfuncRuns + 1 }, false))
    ∧ (∀ (g : Option ConvFunc) (w : PyVal),
        s.cfrontDisabled = 0 → s.cbackDisabled = 0 →
        v ≠ .pnone → convertValue g v = .ok w →
        cfrontCall false g (n+2) s v
          = ({ s with controlVal := v, masterAttr := w }, false)) := by
  refine ⟨⟨?_, ?_⟩, fun t hf g ht => cfrontCall_noop hf g (n+2) t v ht,
    fun t hf g ht => cbackCall_noop hf g (n+2) t v ht,
    fun h1 hv => ?_, fun h1 h2 hv => ?_, fun g w h1 h2 hv hw => ?_⟩
  · simp [cfrontCallWith, hab]
    split <;> rfl
  · simp [cfrontCallWith, haf]
    split <;> rfl
  · simp [cfrontCall, cbackCall, cfuncCall, h1, hv]
  · simp [fireSignal, cfrontCall, cbackCall, cfuncCall, convertValue, h1, h2,
      hv]
  · simp [cfrontCall, cbackCall, h1, h2, hv, hw, cfrontCall_noop]

/-- C1 counterexample: in a binding without a user callback (`checkBox`
etc. called without `callback`), `cfront.opposite` is unset, and a
front-initiated control update re-invokes the value callback: with
`fvcb=float` and attribute `1`, pushing `1` to the control rewrites the
attribute to `float(1)`, so the claimed "never re-invokes the
attribute-setting callback" fails. -/
theorem C1_counterexample :
    cfrontCall false (some .cFloat) 4 ⟨.pint 1, .pint 0, 0, 0, 0, 0⟩ (.pint 1)
      = (⟨.pfloat 1, .pint 1, 0, 0, 0, 0⟩, false)
    ∧ (⟨.pfloat 1, .pint 1, 0, 0, 0, 0⟩ : BindState).masterAttr
        ≠ (⟨.pint 1, .pint 0, 0, 0, 0, 0⟩ : BindState).masterAttr :=
  ⟨by rfl, by decide⟩

/-- C1 witness: a raising action still restores the opposite counters; a
front push only moves the control; a user edit of the control sets the
attribute and runs the user callback once. -/
theorem C1_acyclic_binding_witness :
    ((cfrontCallWith (fun t _ => (t, true))
        ⟨.pint 0, .pint 0, 0, 0, 0, 0⟩ (.pint 3)).1).cbackDisabled = 0
    ∧ cfrontCall true none 2 ⟨.pint 0, .pint 0, 0, 0, 0, 0⟩ (.pint 3)
        = (⟨.pint 0, .pint 3, 0, 0, 0, 0⟩, false)
    ∧ fireSignal true none 2 ⟨.pint 0, .pint 0, 0, 0, 0, 0⟩ (.pint 3)
        = (⟨.pint 3, .pint 0, 0, 0, 0, 1⟩, false) := by
  have h := C1_acyclic_binding ⟨.pint 0, .pint 0, 0, 0, 0, 0⟩ (.pint 3) 0
      (fun t _ => (t, true)) (fun _ _ => rfl) (fun _ _ => rfl)
  exact ⟨h.1.1, h.2.2.2.1 rfl (by decide), h.2.2.2.2.1 rfl rfl (by decide)⟩

/-- C2: `OWComponent.__setattr__` on an undotted name stores the value (a
subsequent `getattr` returns it) and then calls every callback registered
for the name through `connect_control`, in registration order, each with
the new value; on a dotted name both `connect_control` and `__setattr__`
delegate to the sub-component named by the part before the first dot; and
`connectControl` registers the call front under the bound value name, so a
later attribute assignment also invokes the call front with the value. -/
theorem C2_attribute_to_control (c sub : Comp) (n : String)
    (rest : List String) (v : PyVal) (f : Nat) :
    ((c.owSetattr [n] v).1.getAttrVal n = some v)
    ∧ ((c.owSetattr [n] v).2 = (c.getControlled n).map fun cb => (cb, v))
    ∧ ((c.connect_control [n] f).getControlled n = c.getControlled n ++ [f])
    ∧ (rest ≠ [] → c.getSub n = some sub →
        c.connect_control (n :: rest) f
            = c.setSub n (sub.connect_control rest f)
        ∧ c.owSetattr (n :: rest) v
            = (c.setSub n (sub.owSetattr rest v).1, (sub.owSetattr rest v).2))
    ∧ (((connectControlRegister c [n] f).owSetattr [n] v).2
          = ((c.getControlled n).map fun cb => (cb, v)) ++ [(f, v)]) := by
  obtain ⟨a, ctl, sb⟩ := c
  refine ⟨?_, ?_, ?_, fun hr hs => ⟨?_, ?_⟩, ?_⟩
  · simp [Comp.owSetattr, Comp.setAttrVal, Comp.getAttrVal, Comp.attrs,
      Comp.controlled, Comp.subs, alookup_aupdate_self]
  · simp [Comp.owSetattr, Comp.setAttrVal, Comp.getControlled, Comp.attrs,
      Comp.controlled, Comp.subs]
  · simp [Comp.connect_control, Comp.getControlled, Comp.attrs,
      Comp.controlled, Comp.subs, alookup_aupdate_self]
  · rcases rest with _ | ⟨r, rs⟩
    · exact absurd rfl hr
    · simp [Comp.connect_control, hs]
  · rcases rest with _ | ⟨r, rs⟩
    · exact absurd rfl hr
    · simp [Comp.owSetattr, hs]
  · simp [connectControlRegister, Comp.owSetattr, Comp.connect_control,
      Comp.setAttrVal, Comp.getControlled, Comp.attrs, Comp.controlled,
      Comp.subs, alookup_aupdate_self]

/-- C2 witness: a concrete component stores the value, notifies the
registered callback, and delegates a dotted registration. -/
theorem C2_attribute_to_control_witness :
    ((Comp.mk [("x", PyVal.pint 0)] [("x", [7])] []).owSetattr ["x"]
        (PyVal.pint 3)).1.getAttrVal "x" = some (PyVal.pint 3)
    ∧ ((Comp.mk [("x", PyVal.pint 0)] [("x", [7])] []).owSetattr ["x"]
        (PyVal.pint 3)).2 = [(7, PyVal.pint 3)]
    ∧ (Comp.mk [] [] [("graph", Comp.mk [] [] [])]).connect_control
          ["graph", "attr_x"] 5
        = (Comp.mk [] [] [("graph", Comp.mk [] [] [])]).setSub "graph"
            ((Comp.mk [] [] []).connect_control ["attr_x"] 5) := by
  have h1 := C2_attribute_to_control
      (Comp.mk [("x", PyVal.pint 0)] [("x", [7])] []) (Comp.mk [] [] [])
      "x" [] (PyVal.pint 3) 7
  have h2 := C2_attribute_to_control
      (Comp.mk [] [] [("graph", Comp.mk [] [] [])]) (Comp.mk [] [] [])
      "graph" ["attr_x"] (PyVal.pint 3) 5
  refine ⟨h1.1, ?_, (h2.2.2.2.1 (by simp) (by rfl)).1⟩
  simpa using h1.2.1

/-- C3 (amended): the `ValueCallback` of a default `connectControl`
binding, when not disabled, ignores `None`; with no conversion function it
sets the master's attribute to the value itself; with `fvcb` equal to
`int` or `float` it sets the attribute to `fvcb(0)` whenever the value is
falsy or is a string contained in `"+-"` (exactly `""`, `"+"`, `"-"` and
`"+-"`, since the source tests `value in "+-"`, a substring test), and
otherwise sets it to `fvcb(value)` — the attribute staying untouched when
that conversion raises. -/
theorem C3_value_callback (hf : Bool) (g : ConvFunc) (s : BindState)
    (v : PyVal) (n : Nat) (h0 : s.cbackDisabled = 0) :
    (∀ g2 : Option ConvFunc, cbackCall hf g2 (n+2) s .pnone = (s, false))
    ∧ (v ≠ .pnone →
        cbackCall hf none (n+2) s v = ({ s with masterAttr := v }, false))
    ∧ (v ≠ .pnone → isIntOrFloat g = true →
        (pyTruthy v = false ∨ pyValInPM v = true) →
        ∀ w, applyConv g (.pint 0) = .ok w →
          cbackCall hf (some g) (n+2) s v
            = ({ s with masterAttr := w }, false))
    ∧ (v ≠ .pnone →
        (isIntOrFloat g = false ∨ (pyTruthy v = true ∧ pyValInPM v = false)) →
        ∀ w, applyConv g v = .ok w →
          cbackCall hf (some g) (n+2) s v
            = ({ s with masterAttr := w }, false))
    ∧ (v ≠ .pnone →
        (isIntOrFloat g = false ∨ (pyTruthy v = true ∧ pyValInPM v = false)) →
        applyConv g v = .error () →
          cbackCall hf (some g) (n+2) s v = (s, true))
    ∧ (pyValInPM v = true ↔
        v = .pstr "" ∨ v = .pstr "+" ∨ v = .pstr "-" ∨ v = .pstr "+-") := by
  refine ⟨fun g2 => ?_, fun hv => ?_, fun hv hg hcase w hw => ?_,
    fun hv hcase w hw => ?_, fun hv hcase hw => ?_, ?_⟩
  · simp [cbackCall]
  · simp [cbackCall, cfrontCall, convertValue, h0, hv]
  · have hcond : (isIntOrFloat g && (!pyTruthy v || pyValInPM v)) = true := by
      rcases hcase with h | h <;> simp [hg, h]
    simp [cbackCall, cfrontCall, convertValue, h0, hv, hcond, hw]
  · have hcond : (isIntOrFloat g && (!pyTruthy v || pyValInPM v)) = false := by
      rcases hcase with h | h
      · simp [h]
      · simp [h.1, h.2]
    simp [cbackCall, cfrontCall, convertValue, h0, hv, hcond, hw]
  · have hcond : (isIntOrFloat g && (!pyTruthy v || pyValInPM v)) = false := by
      rcases hcase with h | h
      · simp [h]
      · simp [h.1, h.2]
    simp [cbackCall, convertValue, h0, hv, hcond, hw]
  · rcases v with _ | b | m | q | str <;> simp [pyValInPM]
    exact pyStrIn_pm_iff str

/-- C3 counterexample: the string `"+-"` is truthy and is neither `"+"`
nor `"-"`, so the claim prescribes setting the attribute to `int("+-")` —
which raises — yet the code's substring test `value in "+-"` triggers the
`fvcb(0)` branch and sets the attribute to `0`. -/
theorem C3_counterexample :
    cbackCall true (some .cInt) 2 ⟨.pint 7, .pint 5, 0, 0, 0, 0⟩ (.pstr "+-")
      = (⟨.pint 0, .pint 5, 0, 0, 0, 0⟩, false)
    ∧ pyTruthy (.pstr "+-") = true
    ∧ (PyVal.pstr "+-" ≠ .pstr "+") ∧ (PyVal.pstr "+-" ≠ .pstr "-")
    ∧ applyConv .cInt (.pstr "+-") = .error () :=
  ⟨by rfl, by decide, by decide, by decide, by rfl⟩

/-- C3 witness: conversion of `"4"`, identity without `fvcb`, the
`fvcb(0)` branch on the falsy `""`, and a raising conversion on `"x"`
leaving the attribute untouched. -/
theorem C3_value_callback_witness :
    cbackCall true (some .cInt) 2 ⟨.pint 7, .pint 5, 0, 0, 0, 0⟩ (.pstr "4")
      = (⟨.pint 4, .pint 5, 0, 0, 0, 0⟩, false)
    ∧ cbackCall true none 2 ⟨.pint 7, .pint 5, 0, 0, 0, 0⟩ (.pbool true)
      = (⟨.pbool true, .pint 5, 0, 0, 0, 0⟩, false)
    ∧ cbackCall true (some .cInt) 2 ⟨.pint 7, .pint 5, 0, 0, 0, 0⟩ (.pstr "")
      = (⟨.pint 0, .pint 5, 0, 0, 0, 0⟩, false)
    ∧ cbackCall true (some .cInt) 2 ⟨.pint 7, .pint 5, 0, 0, 0, 0⟩ (.pstr "x")
      = (⟨.pint 7, .pint 5, 0, 0, 0, 0⟩, true) := by
  have hA := C3_value_callback true ConvFunc.cInt
      ⟨.pint 7, .pint 5, 0, 0, 0, 0⟩ (.pstr "4") 0 rfl
  have hB := C3_value_callback true ConvFunc.cInt
      ⟨.pint 7, .pint 5, 0, 0, 0, 0⟩ (.pbool true) 0 rfl
  have hC := C3_value_callback true ConvFunc.cInt
      ⟨.pint 7, .pint 5, 0, 0, 0, 0⟩ (.pstr "") 0 rfl
  have hD := C3_value_callback true ConvFunc.cInt
      ⟨.pint 7, .pint 5, 0, 0, 0, 0⟩ (.pstr "x") 0 rfl
  exact ⟨hA.2.2.2.1 (by decide) (Or.inr ⟨by decide, by decide⟩)
        (.pint 4) (by rfl),
    hB.2.1 (by decide),
    hC.2.2.1 (by decide) rfl (Or.inl (by decide)) (.pint 0) rfl,
    hD.2.2.2.2.1 (by decide) (Or.inr ⟨by decide, by decide⟩) (by rfl)⟩

/-- C6 (amended): `ControlledCallback.__init__` deposits nothing on a dict
widget, creates `callbackDeposit` with itself on an object lacking it, and
appends itself otherwise; `FunctionCallback.__init__` appends only when
the attribute already exists; consequently a `checkBox` call on a master
that already has a `callbackDeposit` list deposits both the user-callback
`FunctionCallback` and the `ValueCallback`, in that construction order,
while on a master without one only the `ValueCallback` ends up deposited,
the `FunctionCallback` having been constructed first. -/
theorem C6_callback_deposit (cb fc vc : Nat) (l : List Nat) :
    controlledCallbackDeposit cb .dict = .dict
    ∧ controlledCallbackDeposit cb (.obj none) = .obj (some [cb])
    ∧ controlledCallbackDeposit cb (.obj (some l)) = .obj (some (l ++ [cb]))
    ∧ functionCallbackDeposit cb (.obj (some l)) = .obj (some (l ++ [cb]))
    ∧ functionCallbackDeposit cb (.obj none) = .obj none
    ∧ functionCallbackDeposit cb .dict = .dict
    ∧ (checkBoxDeposits fc vc (.obj (some l))).ids = l ++ [fc, vc]
    ∧ (checkBoxDeposits fc vc (.obj none)).ids = [vc] := by
  refine ⟨rfl, rfl, rfl, rfl, rfl, rfl, ?_, rfl⟩
  simp [checkBoxDeposits, functionCallbackDeposit, controlledCallbackDeposit,
    DepositTarget.ids]

/-- C6 counterexample: on a master with no `callbackDeposit` attribute,
`checkBox` builds the user-callback `FunctionCallback` (id 1) before
`connectControl` builds the `ValueCallback` (id 2); only the latter is
deposited, so "each callback object it created is an element of the
master's callbackDeposit" fails for callback 1. -/
theorem C6_counterexample :
    checkBoxDeposits 1 2 (.obj none) = .obj (some [2])
    ∧ 1 ∉ (checkBoxDeposits 1 2 (.obj none)).ids := by decide

/-- C9 (amended): `Disabler.__call__` (type `DISABLER`, as installed by
`checkBox`) computes an initial `disabled` flag — the negated toggle
argument, or the negated master value without one, forced to `True` for a
disabled check box with `propagateState` — and walks `disables` threading
that flag: a plain widget is set to the current flag, a tuple entry with
integer first element acts on its second element and, when that integer is
`-1`, first inverts the flag for itself and all subsequent entries, any
other tuple entry acts on its first element; `makeConsistent` is invoked
recursively exactly for widgets reached through tuple entries that have
one, never for plain entries. -/
theorem C9_disabler_consistency (ps en mv b hm : Bool) (arg : Option Bool)
    (es xs ys : List DisEntry) (d : Bool) (w : Nat) (tag : Int) :
    ((en = true ∨ ps = false) →
        disablerCall ps en (some b) mv es = disGo (!b) es
        ∧ disablerCall ps en none mv es = disGo (!mv) es)
    ∧ (en = false → ps = true → disablerCall ps en arg mv es = disGo true es)
    ∧ disGo d (xs ++ ys)
        = disGo d xs ++ disGo (if disFlips xs then !d else d) ys
    ∧ disFlips [DisEntry.tupInt (-1) w hm] = true
    ∧ disGo d [DisEntry.plain w hm] = [DisAction.setDisabled w d]
    ∧ (tag ≠ -1 → disGo d [DisEntry.tupInt tag w hm]
          = DisAction.setDisabled w d ::
              (if hm then [DisAction.invokeMakeConsistent w] else []))
    ∧ disGo d [DisEntry.tupInt (-1) w hm]
        = DisAction.setDisabled w (!d) ::
            (if hm then [DisAction.invokeMakeConsistent w] else [])
    ∧ disGo d [DisEntry.tupOther w hm]
        = DisAction.setDisabled w d ::
            (if hm then [DisAction.invokeMakeConsistent w] else [])
    ∧ (DisAction.invokeMakeConsistent w ∈ disGo d es ↔
        (∃ t2, DisEntry.tupInt t2 w true ∈ es)
          ∨ DisEntry.tupOther w true ∈ es) := by
  refine ⟨fun h1 => ⟨?_, ?_⟩, fun h1 h2 => ?_, disGo_append d xs ys, ?_, ?_,
    fun ht => ?_, ?_, ?_, disGo_mc_mem d es w⟩
  · rcases h1 with h1 | h1 <;> simp [disablerCall, h1]
  · rcases h1 with h1 | h1 <;> simp [disablerCall, h1]
  · simp [disablerCall, h1, h2]
  · simp [disFlips]
  · simp [disGo]
  · simp [disGo, ht]
  · simp [disGo]
  · simp [disGo]

/-- C9 counterexample: with the check box enabled and the controlling
value true, `disables = [(-1, w1), w2]` leaves the plain widget `w2`
disabled — the `-1` entry's `disabled = not disabled` persists — although
the claim says an enabled plain widget is disabled exactly when the value
is false; and the plain widget's `makeConsistent` (present, `hasMC=true`)
is never invoked, although the claim says any affected widget with one has
it invoked. -/
theorem C9_counterexample :
    disablerCall true true (some true) true
        [DisEntry.tupInt (-1) 1 false, DisEntry.plain 2 true]
      = [DisAction.setDisabled 1 true, DisAction.setDisabled 2 true]
    ∧ DisAction.setDisabled 2 false ∉ disablerCall true true (some true) true
        [DisEntry.tupInt (-1) 1 false, DisEntry.plain 2 true]
    ∧ DisAction.invokeMakeConsistent 2 ∉ disablerCall true true (some true)
        true [DisEntry.tupInt (-1) 1 false, DisEntry.plain 2 true] :=
  ⟨by rfl, by decide, by decide⟩

/-- C9 witness: an enabled check box walks with the computed flag; a `-1`
tuple inverts the flag for the following entries; a `0`-tagged tuple
invokes the second element's `makeConsistent`. -/
theorem C9_disabler_consistency_witness :
    disablerCall true true (some false) true
        [DisEntry.tupInt (-1) 1 true, DisEntry.plain 2 false]
      = disGo true [DisEntry.tupInt (-1) 1 true, DisEntry.plain 2 false]
    ∧ disGo true ([DisEntry.tupInt (-1) 1 true] ++ [DisEntry.plain 2 false])
      = disGo true [DisEntry.tupInt (-1) 1 true]
          ++ disGo false [DisEntry.plain 2 false]
    ∧ disGo true [DisEntry.tupInt 0 5 true]
      = DisAction.setDisabled 5 true :: [DisAction.invokeMakeConsistent 5] := by
  have h := C9_disabler_consistency true true true false true (some false)
      [DisEntry.tupInt (-1) 1 true, DisEntry.plain 2 false]
      [DisEntry.tupInt (-1) 1 true] [DisEntry.plain 2 false] true 5 0
  refine ⟨(h.1 (Or.inl rfl)).1, ?_, ?_⟩
  · simpa using h.2.2.1
  · simpa using h.2.2.2.2.2.1 (by decide)

/-- C4: after `auto_commit` is set up, the deferred entry point
(`conditional_commit`) commits immediately and clears the dirty flag when
`getattr(master, value)` is true, and otherwise only sets the dirty flag;
the immediate entry point (`do_commit`) commits regardless of the flag and
clears the dirty flag afterwards. -/
theorem C4_deferred_commit (s : ACState) :
    (s.autoFlag = true →
        conditional_commit s
          = { s with commitRuns := s.commitRuns + 1, dirty := false })
    ∧ (s.autoFlag = false → conditional_commit s = { s with dirty := true })
    ∧ do_commit s = { s with commitRuns := s.commitRuns + 1, dirty := false } := by
  refine ⟨fun h => ?_, fun h => ?_, rfl⟩ <;> simp [conditional_commit, do_commit, h]

/-- C4 witness: both branches of the deferred entry point at concrete
states. -/
theorem C4_deferred_commit_witness :
    conditional_commit ⟨true, true, 0, "Apply", true, 0⟩
      = ⟨true, false, 1, "Apply", true, 0⟩
    ∧ conditional_commit ⟨false, false, 2, "Apply", true, 0⟩
      = ⟨false, true, 2, "Apply", true, 0⟩ :=
  ⟨(C4_deferred_commit ⟨true, true, 0, "Apply", true, 0⟩).1 rfl,
   (C4_deferred_commit ⟨false, false, 2, "Apply", true, 0⟩).2.1 rfl⟩

/-- C5: toggling the auto-commit checkbox with the auto flag on disables
the button and relabels it with `auto_label`, and additionally commits and
clears the dirty flag when dirty; with the flag off it re-enables the
button with the plain label and commits nothing; in every case the
optional callback runs afterwards. -/
theorem C5_checkbox_toggled_commit (label autoLabel : String) (hcb : Bool)
    (s : ACState) :
    (s.autoFlag = true → s.dirty = true →
        checkbox_toggled label autoLabel hcb s =
          { s with btnLabel := autoLabel, btnEnabled := false, commitRuns := s.commitRuns + 1, dirty := false, callbackRuns := if hcb then s.callbackRuns + 1 else s.callbackRuns })
    ∧ (s.autoFlag = true → s.dirty = false →
        checkbox_toggled label autoLabel hcb s =
          { s with btnLabel := autoLabel, btnEnabled := false, callbackRuns := if hcb then s.callbackRuns + 1 else s.callbackRuns })
    ∧ (s.autoFlag = false →
        checkbox_toggled label autoLabel hcb s =
          { s with btnLabel := label, btnEnabled := true, callbackRuns := if hcb then s.callbackRuns + 1 else s.callbackRuns })
    ∧ (hcb = true →
        (checkbox_toggled label autoLabel hcb s).callbackRuns
          = s.callbackRuns + 1) := by
  refine ⟨fun h1 h2 => ?_, fun h1 h2 => ?_, fun h1 => ?_, fun h1 => ?_⟩
  · simp [checkbox_toggled, do_commit, h1, h2]
    split <;> rfl
  · simp [checkbox_toggled, do_commit, h1, h2]
    split <;> rfl
  · simp [checkbox_toggled, h1]
    split <;> rfl
  · rcases h : s.autoFlag <;> rcases h2 : s.dirty <;>
      simp [checkbox_toggled, do_commit, h, h2, h1]

/-- C5 witness: the dirty/auto branch commits and runs the callback at a
concrete state. -/
theorem C5_checkbox_toggled_commit_witness :
    checkbox_toggled "Apply" "Apply Automatically" true
        ⟨true, true, 0, "Apply", true, 0⟩
      = ⟨true, false, 1, "Apply Automatically", false, 1⟩
    ∧ checkbox_toggled "Apply" "Apply Automatically" true
        ⟨false, true, 0, "Apply Automatically", false, 0⟩
      = ⟨false, true, 0, "Apply", true, 1⟩ :=
  ⟨(C5_checkbox_toggled_commit "Apply" "Apply Automatically" true
      ⟨true, true, 0, "Apply", true, 0⟩).1 rfl rfl,
   (C5_checkbox_toggled_commit "Apply" "Apply Automatically" true
      ⟨false, true, 0, "Apply Automatically", false, 0⟩).2.2.1 rfl⟩

/-- C7: `create_report_html` rebuilds `report_html`, whatever it held
before, as exactly the section opening, the HTML section header for the
widget's name, the content opening, what `send_report` appends, and the
closing markup. -/
theorem C7_report_html_structure (send : String → String)
    (body datetime : String) (w : ReportWidget)
    (hsend : ∀ str, send str = str ++ body) :
    (create_report_html send datetime w).report_html
      = "<section class=\"section\">" ++ get_html_section w.name datetime
          ++ "<div class=\"content\">\n" ++ body ++ "</div></section>\n\n"
    ∧ (create_report_html send datetime w).name = w.name := by
  constructor
  · simp [create_report_html, hsend, String.append_assoc]
  · rfl

/-- C7 witness: the assembled report of a concrete widget whose
`send_report` appends one paragraph. -/
theorem C7_report_html_structure_witness :
    (create_report_html (fun str => str ++ "<p>1</p>") "Mon Oct 12"
        ⟨"Widget", "stale"⟩).report_html
      = "<section class=\"section\">" ++ get_html_section "Widget" "Mon Oct 12"
          ++ "<div class=\"content\">\n" ++ "<p>1</p>" ++ "</div></section>\n\n" :=
  (C7_report_html_structure (fun str => str ++ "<p>1</p>") "<p>1</p>"
    "Mon Oct 12" ⟨"Widget", "stale"⟩ (fun _ => rfl)).1

/-- C8: calling a `gui.deferred`-decorated attribute directly raises
`RuntimeError` unless a commit of the same instance is already running
(`commit_depth` positive), in which case the underlying function runs;
`Deferred.call` brackets the run with an increment and a `finally`
decrement of `commit_depth`, so the counter returns to its prior value
even when the function raises; and assigning to the decorated class
attribute raises `ValueError`. -/
theorem C8_deferred_dispatch (f : DeferredData → DeferredData × Bool)
    (d : DeferredData) (hpres : ∀ e, (f e).1.commit_depth = e.commit_depth) :
    (d.commit_depth = 0 → deferredDunderCall f d = .raisedRuntimeError)
    ∧ (d.commit_depth ≠ 0 → deferredDunderCall f d = .ran (deferredCall f d))
    ∧ (deferredCall f d).1.commit_depth = d.commit_depth
    ∧ deferrerPropertySet = .raisedValueError := by
  refine ⟨fun h => ?_, fun h => ?_, ?_, rfl⟩
  · simp [deferredDunderCall, h]
  · simp [deferredDunderCall, h]
  · simp [deferredCall, hpres]

/-- C8 witness: at depth 0 the direct call raises; a raising commit body
still leaves `commit_depth` restored. -/
theorem C8_deferred_dispatch_witness :
    deferredDunderCall (fun e => (e, true)) ⟨false, 0⟩ = .raisedRuntimeError
    ∧ (deferredCall (fun e => (e, true)) ⟨false, 3⟩).1.commit_depth = 3 :=
  ⟨(C8_deferred_dispatch (fun e => (e, true)) ⟨false, 0⟩ (fun _ => rfl)).1 rfl,
   (C8_deferred_dispatch (fun e => (e, true)) ⟨false, 3⟩ (fun _ => rfl)).2.2.1⟩

/-- C10: `auto_commit` on an undecorated commit raises `RuntimeError` for
a named commit overriding a decorated method somewhere in
`type(master).mro()[1:]`; otherwise it binds `unconditional_<name>` to the
original commit and `<name>` to the conditional commit, which defers when
the auto flag is off and commits when it is on. -/
theorem C10_commit_rebinding (isLambda : Bool) (nm : String)
    (mroRest : List (List String)) (master : List (String × CommitBinding))
    (s : ACState) :
    (isLambda = false → mroRest.any (fun cls => cls.contains nm) = true →
        autoCommitRebind isLambda nm mroRest master = .error ())
    ∧ (isLambda = true ∨ mroRest.any (fun cls => cls.contains nm) = false →
        autoCommitRebind isLambda nm mroRest master
          = .ok (aupdate
              (aupdate master ("unconditional_" ++ nm) .originalCommit)
              nm .conditionalCommit)
        ∧ alookup (aupdate
              (aupdate master ("unconditional_" ++ nm) .originalCommit)
              nm .conditionalCommit) nm = some .conditionalCommit
        ∧ alookup (aupdate
              (aupdate master ("unconditional_" ++ nm) .originalCommit)
              nm .conditionalCommit) ("unconditional_" ++ nm)
            = some .originalCommit)
    ∧ (s.autoFlag = false → conditional_commit s = { s with dirty := true })
    ∧ (s.autoFlag = true →
        conditional_commit s
          = { s with commitRuns := s.commitRuns + 1, dirty := false }) := by
  have hne : nm ≠ "unconditional_" ++ nm := by
    intro h
    have hlen := congrArg String.length h
    rw [String.length_append] at hlen
    have h14 : String.length "unconditional_" = 14 := by decide
    omega
  refine ⟨fun h1 h2 => ?_, fun h1 => ⟨?_, ?_, ?_⟩, fun h1 => ?_, fun h1 => ?_⟩
  · unfold autoCommitRebind
    rw [h1, h2]
    rfl
  · rcases h1 with h1 | h1
    · subst h1
      simp [autoCommitRebind]
    · unfold autoCommitRebind
      rw [h1]
      simp
  · exact alookup_aupdate_self _ _ _
  · rw [alookup_aupdate_ne _ ("unconditional_" ++ nm) nm _ hne]
    exact alookup_aupdate_self _ _ _
  · simp [conditional_commit, h1]
  · simp [conditional_commit, do_commit, h1]

/-- C10 witness: a named commit shadowing a decorated inherited one raises;
an unshadowed one is rebound, conditional under `commit`, original under
`unconditional_commit`. -/
theorem C10_commit_rebinding_witness :
    autoCommitRebind false "commit" [["commit"]] [] = .error ()
    ∧ autoCommitRebind false "commit" [["other"]] []
        = .ok [("unconditional_commit", .originalCommit),
               ("commit", .conditionalCommit)] := by
  have h1 := C10_commit_rebinding false "commit" [["commit"]] []
      ⟨true, false, 0, "", true, 0⟩
  have h2 := C10_commit_rebinding false "commit" [["other"]] []
      ⟨true, false, 0, "", true, 0⟩
  exact ⟨h1.1 rfl (by decide), (h2.2.1 (Or.inr (by decide))).1⟩

end OrangeGui
